import Mathlib

/-!
# Verification of the dorisloader batching core

A shallow embedding of the batching-and-commit engine of `dorisloader`:
`BulkService` (the batch accumulator, `bulk_service.go`), `bulkWorker`
(the worker loop, thresholds and commit path) and `BulkProcessor`
(lifecycle and flush orchestration, `bulk_processor.go`).

Records are opaque byte sequences, modelled as `List Nat` (one `Nat` per
byte).  The HTTP transport is modelled as a function from the built
stream-load request to a result, supplied by the environment; retries
are driven by a list of such transports, one per attempt.
-/

namespace Dorisloader

/-- A record: an opaque byte sequence (`[]byte` in the source). -/
abbrev Row := List Nat

/-- The decoded stream-load response (`BulkResponse` in `bulk_service.go`). -/
structure BulkResponse where
  txnId : Int
  label : String
  status : String
  existingJobStatus : String
  message : String
  numberTotalRows : Int
  numberLoadedRows : Int
  numberFilteredRows : Int
  numberUnselectedRows : Int
  loadBytes : Int
  loadTimeMs : Int
  errorURL : String
deriving Repr, DecidableEq

/-- The batch accumulator (`BulkService` in `bulk_service.go`).  Only the
fields the core logic reads or writes are modelled; the load options
(`label`, `maxFilterRatio`, …) are carried where claims mention them. -/
structure BulkService where
  rows : List Row
  db : String
  table : String
  headers : List (String × String)
  /-- estimated bulk size in bytes, up to the request index `sizeInBytesCursor` -/
  sizeInBytes : Int
  sizeInBytesCursor : Nat
deriving Repr, DecidableEq

/-- `NewBulkService`: fresh service with the `Expect: 100-continue` header. -/
def NewBulkService (db table : String) : BulkService :=
  { rows := [], db := db, table := table
    headers := [("Expect", "100-continue")]
    sizeInBytes := 0, sizeInBytesCursor := 0 }

namespace BulkService

/-- `BulkService.NumberOfRows`: `len(s.rows)`. -/
def NumberOfRows (s : BulkService) : Nat := s.rows.length

/-- `BulkService.estimateSizeInBytes`: `int64(len(r))`. -/
def estimateSizeInBytes (r : Row) : Int := (r.length : Int)

/-- `BulkService.EstimatedSizeInBytes`: if the cursor is at the end the memoised
sum is returned; otherwise the rows from the cursor on are folded into
`sizeInBytes` and the cursor advanced.  The Go method mutates the receiver,
so the updated service is returned alongside the value. -/
def EstimatedSizeInBytes (s : BulkService) : BulkService × Int :=
  if s.sizeInBytesCursor = s.rows.length then (s, s.sizeInBytes)
  else
    let rest := s.rows.drop s.sizeInBytesCursor
    let sz := rest.foldl (fun acc r => acc + estimateSizeInBytes r) s.sizeInBytes
    ({ s with sizeInBytes := sz
              sizeInBytesCursor := s.sizeInBytesCursor + rest.length }, sz)

/-- `BulkService.bodyAsString`: each row written to the buffer followed by a
single newline byte (10).  The initial `buf.Grow(EstimatedSizeInBytes())` is
a capacity hint, but it advances the size cursor, so the updated service is
returned too.  The Go error result is always `nil` and is omitted. -/
def bodyAsString (s : BulkService) : BulkService × List Nat :=
  let s' := (s.EstimatedSizeInBytes).1
  (s', s'.rows.foldl (fun buf row => buf ++ row ++ [10]) [])

/-- `BulkService.buildUrlPath`: `/api/<db>/<table>/_stream_load`. -/
def buildUrlPath (s : BulkService) : String :=
  "/api/" ++ s.db ++ "/" ++ s.table ++ "/_stream_load"

/-- `BulkService.Reset`: empty the rows and the size accounting. -/
def Reset (s : BulkService) : BulkService :=
  { s with rows := [], sizeInBytes := 0, sizeInBytesCursor := 0 }

/-- `BulkService.Add`: append the given rows to the batch. -/
def Add (s : BulkService) (rows : List Row) : BulkService :=
  { s with rows := s.rows ++ rows }

end BulkService

/-- The stream-load HTTP request `BulkService.Do` hands to
`Client.PerformRequest` (method, path, body, request-level headers). -/
structure StreamLoadRequest where
  method : String
  path : String
  body : List Nat
  headers : List (String × String)
deriving Repr, DecidableEq

/-- The environment's answer to one HTTP attempt: transport + decode of
`PerformRequest` collapsed into one fallible step. -/
abbrev Transport := StreamLoadRequest → Except String BulkResponse

/-- Everything one call of `BulkService.Do` produces: the (possibly reset)
service, the HTTP request it performed (`none` when it returned before
performing one), and the result. -/
structure DoResult where
  service : BulkService
  request : Option StreamLoadRequest
  result : Except String BulkResponse
deriving Repr

/-- `BulkService.Do`: refuse an empty batch with an error before any request
is built; otherwise build the body and path, perform the request, and on
success decode and `Reset` the service.  Every failure path returns the
service un-reset. -/
def BulkService.Do (s : BulkService) (transport : Transport) : DoResult :=
  if s.NumberOfRows = 0 then
    { service := s, request := none, result := .error "No bulk rows to commit" }
  else
    let sb := s.bodyAsString
    let req : StreamLoadRequest :=
      { method := "PUT", path := sb.1.buildUrlPath, body := sb.2
        headers := sb.1.headers }
    match transport req with
    | .error e => { service := sb.1, request := some req, result := .error e }
    | .ok ret => { service := sb.1.Reset, request := some req, result := .ok ret }

/-- One worker (`bulkWorker` in the source): thresholds copied from the
processor and the owned batch accumulator.  The two flush channels are
modelled by the flush-handshake semantics below, not stored. -/
structure BulkWorker where
  bulkActions : Int
  bulkSize : Int
  service : BulkService
deriving Repr

namespace BulkWorker

/-- `bulkWorker.commitRequired`: the count threshold fires when
`bulkActions >= 0 && NumberOfRows() >= bulkActions`; otherwise the size
threshold is consulted, `bulkSize >= 0 && EstimatedSizeInBytes() >= bulkSize`.
Go's `&&` short-circuits, so `EstimatedSizeInBytes` (which mutates the
service: cursor advance) is only evaluated when `bulkSize >= 0`; the
possibly updated worker is returned with the boolean. -/
def commitRequired (w : BulkWorker) : BulkWorker × Bool :=
  if w.bulkActions ≥ 0 ∧ (w.service.NumberOfRows : Int) ≥ w.bulkActions then
    (w, true)
  else if w.bulkSize ≥ 0 then
    let est := w.service.EstimatedSizeInBytes
    let w' := { w with service := est.1 }
    if est.2 ≥ w'.bulkSize then (w', true) else (w', false)
  else (w, false)

/-- Modelled from the spec: `RetryNotify` (the retry/backoff code is not under
`src/`; §4.3 Retry Policy).  "Repeatedly invokes `operation`; on error …
retries …; stops retrying when the schedule signals exhaustion … and returns
the last error, or returns success immediately on the first non-error
result."  The backoff schedule is modelled by the list of per-attempt
transports the environment permits: one `Do` per transport, stopping at the
first success or when the schedule is exhausted. -/
def retryDo (s : BulkService) : List Transport → BulkService × Except String BulkResponse
  | [] => (s, .error "backoff schedule exhausted before any attempt")
  | t :: ts =>
    let r := s.Do t
    match r.result with
    | .ok v => (r.service, .ok v)
    | .error e =>
      match ts with
      | [] => (r.service, .error e)
      | _ => retryDo r.service ts

/-- `bulkWorker.commit`: commit the batch through the retry policy
(`RetryNotify(commitFunc, backoff, notifyFunc)`), returning the final error. -/
def commit (w : BulkWorker) (attempts : List Transport) :
    BulkWorker × Except String BulkResponse :=
  let r := retryDo w.service attempts
  ({ w with service := r.1 }, r.2)

end BulkWorker

/-- One event delivered to the worker's `select` loop in `bulkWorker.work`:
a row received on the open intake channel, the intake channel found closed,
or a signal on the flush-request channel. -/
inductive WorkerInput
  | row (r : Row)
  | closed
  | flush
deriving Repr, DecidableEq

/-- What caused a commit the worker issued: the commit-required threshold
after a row arrival, the drain on intake close, or a flush signal. -/
inductive CommitTrigger
  | threshold
  | drain
  | flushSignal
deriving Repr, DecidableEq

/-- One commit the worker loop issued: its cause, the batch rows at the
moment `commit` was invoked, and the final result after retries. -/
structure CommitEvent where
  trigger : CommitTrigger
  payload : List Row
  result : Except String BulkResponse
deriving Repr

namespace BulkWorker

/-- One iteration of `bulkWorker.work`'s `select`.  `env n` is the backoff
schedule (per-attempt transports) the environment grants the worker's `n`-th
commit invocation; `k` counts those invocations.  Returns the new worker
state and counter, the commits issued, whether an acknowledgment was sent
on `flushAckC`, and whether the loop stops.  The commit error `err` is
computed and then discarded by the loop body (its handler is an empty
`TODO` branch). -/
def step (env : Nat → List Transport) (w : BulkWorker) (k : Nat) :
    WorkerInput → (BulkWorker × Nat) × List CommitEvent × Bool × Bool
  | .row r =>
    let w1 := { w with service := w.service.Add [r] }
    let cr := w1.commitRequired
    if cr.2 then
      let payload := cr.1.service.rows
      let c := cr.1.commit (env k)
      ((c.1, k + 1), [⟨.threshold, payload, c.2⟩], false, false)
    else
      ((cr.1, k), [], false, false)
  | .closed =>
    if w.service.NumberOfRows > 0 then
      let payload := w.service.rows
      let c := w.commit (env k)
      ((c.1, k + 1), [⟨.drain, payload, c.2⟩], false, true)
    else
      ((w, k), [], false, true)
  | .flush =>
    if w.service.NumberOfRows > 0 then
      let payload := w.service.rows
      let c := w.commit (env k)
      ((c.1, k + 1), [⟨.flushSignal, payload, c.2⟩], true, false)
    else
      ((w, k), [], true, false)

/-- The worker loop (`for !stop`): consume inputs until one stops the loop
(intake closed) or they run out, collecting the commits issued. -/
def run (env : Nat → List Transport) (w : BulkWorker) (k : Nat) :
    List WorkerInput → (BulkWorker × Nat) × List CommitEvent
  | [] => ((w, k), [])
  | i :: is =>
    let out := step env w k i
    match out.2.2.2 with
    | true => (out.1, out.2.1)
    | false =>
      let rest := run env out.1.1 out.1.2 is
      (rest.1, out.2.1 ++ rest.2)

/-- The `case <-w.flushC` branch of `bulkWorker.work`: commit only when the
batch is non-empty, then (unconditionally, in the caller `flushLoop`) send
the acknowledgment.  Returns the worker and the commit it issued, if any. -/
def handleFlush (w : BulkWorker) (sched : List Transport) :
    BulkWorker × Option (List Row × Except String BulkResponse) :=
  if w.service.NumberOfRows > 0 then
    let payload := w.service.rows
    let c := w.commit sched
    (c.1, some (payload, c.2))
  else
    (w, none)

end BulkWorker

/-- The processor (`BulkProcessor` in `bulk_processor.go`).  `flushInterval`
is a `time.Duration`, i.e. an `int64` nanosecond count. -/
structure BulkProcessor where
  db : String
  table : String
  bulkActions : Int
  bulkSize : Int
  flushInterval : Int
  numWorkers : Int
  started : Bool
  workers : List BulkWorker
deriving Repr

/-- `NewBulkProcessor`: a stopped processor with the given configuration. -/
def NewBulkProcessor (db table : String) (numWorkers : Int)
    (bulkActions bulkSize flushInterval : Int) : BulkProcessor :=
  { db := db, table := table, bulkActions := bulkActions, bulkSize := bulkSize
    flushInterval := flushInterval, numWorkers := numWorkers
    started := false, workers := [] }

/-- `newBulkWorker`: thresholds copied from the processor, a fresh service
aimed at the processor's db/table.  (The worker's pool index is used only
as identity in the source and is not stored here.) -/
def newBulkWorker (p : BulkProcessor) : BulkWorker :=
  { bulkActions := p.bulkActions, bulkSize := p.bulkSize
    service := NewBulkService p.db p.table }

namespace BulkProcessor

/-- `BulkProcessor.checkInterval`: a configuration error exactly when bulk
actions, bulk size and flush interval are all `0`. -/
def checkInterval (p : BulkProcessor) : Option String :=
  if p.bulkActions = 0 ∧ p.bulkSize = 0 ∧ p.flushInterval = 0 then
    some "bulk actions and bulk size and flush interval all is nil(0)"
  else none

/-- `BulkProcessor.Start`: under the start lock, validate via `checkInterval`
(before the started check), return immediately when already started, else
force at least one worker, create the pool, and mark started. -/
def Start (p : BulkProcessor) : BulkProcessor × Option String :=
  match p.checkInterval with
  | some e => (p, some e)
  | none =>
    if p.started then (p, none)
    else
      let n := if p.numWorkers < 1 then 1 else p.numWorkers
      let p' := { p with numWorkers := n }
      let ws := (List.range n.toNat).map (fun _ => newBulkWorker p')
      ({ p' with workers := ws, started := true }, none)

end BulkProcessor

/-- One observable step of the `Flush` handshake, for worker index `i` in
pool order: the send on `flushC`, a commit the worker then issued, and the
worker's send on `flushAckC` (which `Flush` awaits before moving on). -/
inductive FlushEvent
  | signal (i : Nat)
  | commitAttempt (i : Nat) (payload : List Row) (result : Except String BulkResponse)
  | ack (i : Nat)
deriving Repr

/-- `FlushEvent` is an `ack`. -/
def FlushEvent.isAck (i : Nat) : FlushEvent → Bool
  | .ack j => i = j
  | _ => false

/-- `FlushEvent` is a `signal`. -/
def FlushEvent.isSignal (i : Nat) : FlushEvent → Bool
  | .signal j => i = j
  | _ => false

/-- The body of `BulkProcessor.Flush`: for each worker in pool order, send on
its `flushC` and block on its `flushAckC` — so worker `i`'s whole handling
(commit if non-empty, then ack) happens before worker `i+1` is signaled.
`env i` is the backoff schedule granted to worker `i`'s commit. -/
def flushLoop (env : Nat → List Transport) :
    Nat → List BulkWorker → List BulkWorker × List FlushEvent
  | _, [] => ([], [])
  | i, w :: ws =>
    let hf := w.handleFlush (env i)
    let evs := FlushEvent.signal i ::
      ((match hf.2 with
        | some (p, r) => [FlushEvent.commitAttempt i p r]
        | none => []) ++ [FlushEvent.ack i])
    let rest := flushLoop env (i + 1) ws
    (hf.1 :: rest.1, evs ++ rest.2)

/-- `BulkProcessor.Flush`: run the handshake over the pool, then `return nil`
— the error component is `none` on every path of the source. -/
def BulkProcessor.Flush (p : BulkProcessor) (env : Nat → List Transport) :
    BulkProcessor × List FlushEvent × Option String :=
  let fl := flushLoop env 0 p.workers
  ({ p with workers := fl.1 }, fl.2, none)

/-! ## Specification-side definitions

These follow the spec's words, to be compared with the embedded code. -/

/-- Spec-side: "the estimated size equals the sum of each record's byte
length" — the exact sum over the whole batch. -/
def totalSize (s : BulkService) : Int :=
  (s.rows.map (fun r => (r.length : Int))).sum

/-- Spec-side: the wire payload is "the concatenation of r1..rn in insertion
order, each record followed by exactly one newline byte". -/
def wireFormat (rows : List Row) : List Nat :=
  (rows.map (fun r => r ++ [10])).flatten

/-- The size-accounting invariant of a `BulkService`: the cursor is inside
the row list and `sizeInBytes` memoises the sum of the byte lengths of the
rows before the cursor.  It holds for a fresh service and is maintained by
every operation of the source. -/
def sizeInvariant (s : BulkService) : Prop :=
  s.sizeInBytesCursor ≤ s.rows.length ∧
  s.sizeInBytes = ((s.rows.take s.sizeInBytesCursor).map (fun r => (r.length : Int))).sum

instance (s : BulkService) : Decidable (sizeInvariant s) := by
  unfold sizeInvariant; infer_instance

/-- Spec-side: the per-worker block of the `Flush` handshake, for worker `w`
at pool index `i` — the signal, then a commit attempt exactly when the batch
is non-empty (with the batch as payload), then the unconditional
acknowledgment. -/
def flushBlockSpec (env : Nat → List Transport) (iw : Nat × BulkWorker) :
    List FlushEvent :=
  FlushEvent.signal iw.1 ::
    ((if iw.2.service.NumberOfRows > 0 then
        [FlushEvent.commitAttempt iw.1 iw.2.service.rows (iw.2.commit (env iw.1)).2]
      else []) ++ [FlushEvent.ack iw.1])

/-! ## Environment fixtures

Concrete transports used by counterexamples and witnesses. -/

/-- A response the environment returns on success. -/
def okResponse : BulkResponse :=
  { txnId := 1, label := "l", status := "Success", existingJobStatus := ""
    message := "OK", numberTotalRows := 1, numberLoadedRows := 1
    numberFilteredRows := 0, numberUnselectedRows := 0, loadBytes := 2
    loadTimeMs := 3, errorURL := "" }

/-- A transport whose every attempt succeeds. -/
def okTransport : Transport := fun _ => .ok okResponse

/-- A transport whose every attempt fails. -/
def failTransport : Transport := fun _ => .error "connection refused"

/-- A worker with both thresholds disabled by the negative sentinel, holding
one three-byte record. -/
def sampleWorkerDisabled : BulkWorker :=
  { bulkActions := -1, bulkSize := -1
    service := (NewBulkService "db" "tbl").Add [[1, 2, 3]] }

/-- A worker with `bulkActions = 0`, right after a single appended record. -/
def sampleWorkerZeroActions : BulkWorker :=
  { bulkActions := 0, bulkSize := -1
    service := (NewBulkService "db" "tbl").Add [[65]] }

/-- A service whose size cursor sits mid-list: rows of lengths 2 and 1, with
only the first already accounted. -/
def sampleServiceMidCursor : BulkService :=
  { rows := [[1, 2], [3]], db := "d", table := "t", headers := []
    sizeInBytes := 2, sizeInBytesCursor := 1 }

/-- A worker with a count threshold of 2, a disabled size threshold, and one
pending one-byte record. -/
def sampleWorkerOnePending : BulkWorker :=
  { bulkActions := 2, bulkSize := -1
    service := (NewBulkService "db" "tbl").Add [[65]] }

/-- A worker with a count threshold of 2, a disabled size threshold, and an
empty batch. -/
def sampleWorkerFreshK2 : BulkWorker :=
  { bulkActions := 2, bulkSize := -1, service := NewBulkService "db" "tbl" }

/-- A started single-worker processor whose worker holds one pending
record. -/
def sampleProcessorPending : BulkProcessor :=
  { db := "db", table := "tbl", bulkActions := 100, bulkSize := -1
    flushInterval := 0, numWorkers := 1, started := true
    workers := [sampleWorkerOnePending] }

/-- An environment granting every commit a single always-successful
attempt. -/
def envAllOk : Nat → List Transport := fun _ => [okTransport]

/-! ## Basic lemmas about the batch accumulator -/

theorem foldl_estimate (a : Int) (l : List Row) :
    l.foldl (fun acc r => acc + BulkService.estimateSizeInBytes r) a
      = a + (l.map (fun r => (r.length : Int))).sum := by
  induction l generalizing a with
  | nil => simp
  | cons r l ih =>
    rw [List.foldl_cons, ih]
    simp only [BulkService.estimateSizeInBytes, List.map_cons, List.sum_cons]
    ring

theorem foldl_body (acc : List Nat) (rows : List Row) :
    rows.foldl (fun buf row => buf ++ row ++ [10]) acc = acc ++ wireFormat rows := by
  induction rows generalizing acc with
  | nil => simp [wireFormat]
  | cons r rs ih =>
    rw [List.foldl_cons, ih]
    simp [wireFormat, List.append_assoc]

theorem estSize_rows (s : BulkService) :
    (s.EstimatedSizeInBytes).1.rows = s.rows := by
  unfold BulkService.EstimatedSizeInBytes
  split <;> rfl

theorem estSize_headers (s : BulkService) :
    (s.EstimatedSizeInBytes).1.headers = s.headers ∧
    (s.EstimatedSizeInBytes).1.db = s.db ∧
    (s.EstimatedSizeInBytes).1.table = s.table := by
  unfold BulkService.EstimatedSizeInBytes
  split <;> exact ⟨rfl, rfl, rfl⟩

theorem estSize_val (s : BulkService) (h : sizeInvariant s) :
    (s.EstimatedSizeInBytes).2 = totalSize s := by
  obtain ⟨hc, hv⟩ := h
  unfold BulkService.EstimatedSizeInBytes
  split
  · next heq =>
    simp only [totalSize, hv, heq, List.take_length]
  · next hne =>
    simp only [foldl_estimate, hv, totalSize]
    rw [← List.sum_append, ← List.map_append, List.take_append_drop]

theorem estSize_state (s : BulkService) (h : sizeInvariant s) :
    (s.EstimatedSizeInBytes).1.sizeInBytesCursor = s.rows.length ∧
    (s.EstimatedSizeInBytes).1.sizeInBytes = totalSize s ∧
    sizeInvariant (s.EstimatedSizeInBytes).1 := by
  have hval := estSize_val s h
  obtain ⟨hc, hv⟩ := h
  have hrows := estSize_rows s
  have hcur : (s.EstimatedSizeInBytes).1.sizeInBytesCursor = s.rows.length := by
    unfold BulkService.EstimatedSizeInBytes
    split
    · next heq => exact heq
    · next hne =>
      simp only [List.length_drop]
      omega
  have hsz : (s.EstimatedSizeInBytes).1.sizeInBytes = (s.EstimatedSizeInBytes).2 := by
    unfold BulkService.EstimatedSizeInBytes
    split <;> rfl
  refine ⟨hcur, hsz.trans hval, ?_, ?_⟩
  · rw [hcur, hrows]
  · rw [hsz.trans hval, hcur, hrows, List.take_length]
    rfl

theorem add_invariant (s : BulkService) (h : sizeInvariant s) (rs : List Row) :
    sizeInvariant (s.Add rs) := by
  obtain ⟨hc, hv⟩ := h
  constructor
  · simp only [BulkService.Add, List.length_append]
    omega
  · simpa [BulkService.Add, List.take_append_of_le_length hc] using hv

theorem reset_invariant (s : BulkService) : sizeInvariant s.Reset := by
  constructor <;> simp [BulkService.Reset]

theorem newService_invariant (db table : String) :
    sizeInvariant (NewBulkService db table) := by
  constructor <;> simp [NewBulkService]

/-! ## Lemmas about `Do`, the retried commit, and the worker -/

theorem numberOfRows_eq_zero (s : BulkService) :
    s.NumberOfRows = 0 ↔ s.rows = [] := by
  simp [BulkService.NumberOfRows, List.length_eq_zero]

theorem bodyAsString_rows (s : BulkService) :
    (s.bodyAsString).1.rows = s.rows := by
  simp [BulkService.bodyAsString, estSize_rows]

theorem do_rows (s : BulkService) (t : Transport) :
    (∀ v, (s.Do t).result = .ok v → (s.Do t).service.rows = []) ∧
    (∀ e, (s.Do t).result = .error e → (s.Do t).service.rows = s.rows) := by
  unfold BulkService.Do
  split
  · next h0 =>
    exact ⟨fun v hv => by simp at hv, fun e he => rfl⟩
  · next h0 =>
    dsimp only
    split
    · next e heq =>
      exact ⟨fun v hv => by simp at hv, fun e' he => bodyAsString_rows s⟩
    · next v heq =>
      exact ⟨fun v' hv => rfl, fun e he => by simp at he⟩

theorem do_ok_of_transport (s : BulkService) (t : Transport)
    (hok : ∀ req, ∃ v, t req = Except.ok v) (h : s.rows ≠ []) :
    ∃ v, (s.Do t).result = Except.ok v := by
  have hn : ¬ s.NumberOfRows = 0 := by simp [numberOfRows_eq_zero, h]
  unfold BulkService.Do
  rw [if_neg hn]
  dsimp only
  obtain ⟨v, hv⟩ := hok (StreamLoadRequest.mk "PUT" (s.bodyAsString).1.buildUrlPath
    (s.bodyAsString).2 (s.bodyAsString).1.headers)
  rw [hv]
  exact ⟨v, rfl⟩

theorem retryDo_rows (ts : List Transport) (s : BulkService) (h : s.rows ≠ []) :
    (∀ v, (BulkWorker.retryDo s ts).2 = .ok v →
      (BulkWorker.retryDo s ts).1.rows = []) ∧
    (∀ e, (BulkWorker.retryDo s ts).2 = .error e →
      (BulkWorker.retryDo s ts).1.rows = s.rows) := by
  induction ts generalizing s with
  | nil =>
    refine ⟨fun v hv => by simp [BulkWorker.retryDo] at hv, fun e he => rfl⟩
  | cons t ts ih =>
    have hdo := do_rows s t
    rw [BulkWorker.retryDo]
    rcases hr : (s.Do t).result with e | v
    · rcases ts with _ | ⟨t', ts'⟩
      · simp only [hr]
        exact ⟨fun v hv => by simp at hv, fun e' he => hdo.2 e hr⟩
      · simp only [hr]
        have hrows : (s.Do t).service.rows = s.rows := hdo.2 e hr
        have ih' := ih (s.Do t).service (by rw [hrows]; exact h)
        rw [hrows] at ih'
        exact ih'
    · simp only [hr]
      exact ⟨fun v' _ => hdo.1 v hr, fun e he => by simp at he⟩

theorem retryDo_ok_head (s : BulkService) (t : Transport) (ts : List Transport)
    (hok : ∀ req, ∃ v, t req = Except.ok v) (h : s.rows ≠ []) :
    (BulkWorker.retryDo s (t :: ts)).1.rows = [] := by
  obtain ⟨v, hv⟩ := do_ok_of_transport s t hok h
  have hrows := (do_rows s t).1 v hv
  rw [BulkWorker.retryDo]
  simp only [hv]
  exact hrows

theorem commitRequired_iff (w : BulkWorker) (h : sizeInvariant w.service) :
    (w.commitRequired).2 = true ↔
      (w.bulkActions ≥ 0 ∧ (w.service.NumberOfRows : Int) ≥ w.bulkActions) ∨
      (w.bulkSize ≥ 0 ∧ totalSize w.service ≥ w.bulkSize) := by
  have hval := estSize_val w.service h
  by_cases hc : w.bulkActions ≥ 0 ∧ (w.service.NumberOfRows : Int) ≥ w.bulkActions
  · simp [BulkWorker.commitRequired, hc]
  · by_cases hs : w.bulkSize ≥ 0
    · by_cases hge : totalSize w.service ≥ w.bulkSize
      · simp [BulkWorker.commitRequired, hc, hs, hval, hge]
      · simp [BulkWorker.commitRequired, hc, hs, hval, hge]
    · simp [BulkWorker.commitRequired, hc, hs]

/-! ## The claims -/

/-- C8: for every batch of records r1..rn, the serialized wire payload
produced by `bodyAsString` equals the concatenation of r1..rn in insertion
order, each record followed by exactly one newline byte. -/
theorem C8_body_is_wire_format (s : BulkService) :
    (s.bodyAsString).2 = wireFormat s.rows := by
  simp only [BulkService.bodyAsString, estSize_rows, foldl_body, List.nil_append]

/-- C10: for every `BulkService` whose batch is empty, `Do` returns an error
without performing any HTTP request, and the service state (rows, size
estimate, headers, everything) is unchanged. -/
theorem C10_do_empty_no_request (s : BulkService) (t : Transport)
    (h : s.NumberOfRows = 0) :
    s.Do t = DoResult.mk s none (Except.error "No bulk rows to commit") := by
  simp [BulkService.Do, h]

theorem C10_witness :
    (NewBulkService "db" "tbl").NumberOfRows = 0 ∧
    (NewBulkService "db" "tbl").Do okTransport =
      DoResult.mk (NewBulkService "db" "tbl") none
        (Except.error "No bulk rows to commit") :=
  ⟨rfl, C10_do_empty_no_request (NewBulkService "db" "tbl") okTransport rfl⟩

/-- C9: a worker whose `bulkActions` is `0` — the very value
`BulkProcessor.checkInterval` treats as "not configured" — has a
commit-required predicate that is true for every batch state, because the
disable sentinel in `commitRequired` is a negative value, not `0`. -/
theorem C9_zero_bulkActions_always_fires (w : BulkWorker)
    (h : w.bulkActions = 0) :
    (w.commitRequired).2 = true := by
  have hcond : w.bulkActions ≥ 0 ∧ (w.service.NumberOfRows : Int) ≥ w.bulkActions := by
    rw [h]
    exact ⟨le_refl 0, Int.ofNat_nonneg _⟩
  unfold BulkWorker.commitRequired
  rw [if_pos hcond]

theorem C9_witness :
    sampleWorkerZeroActions.bulkActions = 0 ∧
    (sampleWorkerZeroActions.commitRequired).2 = true :=
  ⟨rfl, C9_zero_bulkActions_always_fires sampleWorkerZeroActions rfl⟩

/-- C3: the commit-required predicate is true exactly when (the count
threshold is enabled, i.e. non-negative, and the record count reaches it) or
(the byte-size threshold is enabled and the estimated size reaches it); with
both thresholds disabled by the negative sentinel it is false for every
batch. -/
theorem C3_commitRequired_characterisation (w : BulkWorker)
    (h : sizeInvariant w.service) :
    ((w.commitRequired).2 = true ↔
      (w.bulkActions ≥ 0 ∧ (w.service.NumberOfRows : Int) ≥ w.bulkActions) ∨
      (w.bulkSize ≥ 0 ∧ totalSize w.service ≥ w.bulkSize)) ∧
    (w.bulkActions < 0 → w.bulkSize < 0 → (w.commitRequired).2 = false) := by
  refine ⟨commitRequired_iff w h, fun ha hs => ?_⟩
  cases hb : (w.commitRequired).2 with
  | false => rfl
  | true =>
    rcases (commitRequired_iff w h).1 hb with ⟨h1, _⟩ | ⟨h1, _⟩ <;> omega

theorem C3_witness :
    sizeInvariant sampleWorkerDisabled.service ∧
    (sampleWorkerDisabled.commitRequired).2 = false :=
  ⟨by decide,
   (C3_commitRequired_characterisation sampleWorkerDisabled (by decide)).2
     (by decide) (by decide)⟩

/-- C6: with the size-accounting invariant, `EstimatedSizeInBytes` returns
exactly the sum of the byte lengths of the accumulated records; after that
computation, appending new records leaves exactly those new records beyond
the cursor (so the next computation scans only them — by definition it folds
over `rows.drop sizeInBytesCursor`), and its value is the previous sum plus
the lengths of the new records only. -/
theorem C6_incremental_size (s : BulkService) (h : sizeInvariant s)
    (rs : List Row) :
    (s.EstimatedSizeInBytes).2 = totalSize s ∧
    ((s.EstimatedSizeInBytes).1.Add rs).rows.drop
        ((s.EstimatedSizeInBytes).1.Add rs).sizeInBytesCursor = rs ∧
    (((s.EstimatedSizeInBytes).1.Add rs).EstimatedSizeInBytes).2
      = (s.EstimatedSizeInBytes).2 + (rs.map (fun r => (r.length : Int))).sum := by
  obtain ⟨hcur, hsz, hinv⟩ := estSize_state s h
  have h1 := estSize_val s h
  refine ⟨h1, ?_, ?_⟩
  · have hr := estSize_rows s
    simp only [BulkService.Add, hcur, hr]
    exact List.drop_left _ _
  · have hinv2 := add_invariant _ hinv rs
    rw [estSize_val _ hinv2, h1]
    simp [totalSize, BulkService.Add, estSize_rows]

theorem C6_witness :
    sizeInvariant sampleServiceMidCursor ∧
    (sampleServiceMidCursor.EstimatedSizeInBytes).2 = 3 := by
  have h := C6_incremental_size sampleServiceMidCursor (by decide) [[4, 5, 6]]
  exact ⟨by decide, by rw [h.1]; decide⟩

/-- C7: `Start` returns a configuration error exactly when none of max
record count, max byte size and flush interval is configured (all three
`0`); otherwise a stopped processor is started (pool of
`max 1 numWorkers` fresh workers, `started` set) with a `nil` error, and a
call on an already started processor changes nothing and returns `nil`. -/
theorem C7_start_validation_and_idempotence (p : BulkProcessor) :
    ((p.Start).2.isSome = true ↔
      p.bulkActions = 0 ∧ p.bulkSize = 0 ∧ p.flushInterval = 0) ∧
    (¬(p.bulkActions = 0 ∧ p.bulkSize = 0 ∧ p.flushInterval = 0) →
      (p.started = true → p.Start = (p, none)) ∧
      (p.started = false →
        (p.Start).2 = none ∧ (p.Start).1.started = true ∧
        (p.Start).1.workers.length
          = (if p.numWorkers < 1 then 1 else p.numWorkers).toNat ∧
        ∀ w ∈ (p.Start).1.workers,
          w.bulkActions = p.bulkActions ∧ w.bulkSize = p.bulkSize ∧
          w.service = NewBulkService p.db p.table)) := by
  by_cases hcond : p.bulkActions = 0 ∧ p.bulkSize = 0 ∧ p.flushInterval = 0
  · simp [BulkProcessor.Start, BulkProcessor.checkInterval, hcond]
  · have h2none : (p.Start).2 = none := by
      unfold BulkProcessor.Start BulkProcessor.checkInterval
      rw [if_neg hcond]
      split
      · next e heq => simp at heq
      · next heq => split <;> rfl
    refine ⟨by rw [h2none]; simp [hcond], fun _ => ?_⟩
    constructor
    · intro hst
      simp [BulkProcessor.Start, BulkProcessor.checkInterval, hcond, hst]
    · intro hst
      simp [BulkProcessor.Start, BulkProcessor.checkInterval, hcond, hst,
        newBulkWorker]

/-- C1 as stated is false: after a commit attempt that fails (here: the
only permitted attempt's transport fails), the batch is NOT cleared — the
record is still in the batch, because `BulkService.Do` calls `Reset` only
on its success path. -/
theorem C1_counterexample :
    (sampleWorkerOnePending.commit [failTransport]).2
      = Except.error "connection refused" ∧
    (sampleWorkerOnePending.commit [failTransport]).1.service.rows = [[65]] :=
  ⟨rfl, rfl⟩

/-- C1 (amended): after `bulkWorker.commit` on a non-empty batch, the batch
is cleared exactly when the retried commit ultimately succeeded; when it
failed (or exhausted all retries) the records are preserved unchanged in
the batch — which is what makes the retries meaningful, since a retried
`Do` re-sends the same rows. -/
theorem C1_amended_cleared_iff_success (w : BulkWorker) (ts : List Transport)
    (h : w.service.rows ≠ []) :
    (∀ v, (w.commit ts).2 = .ok v → (w.commit ts).1.service.rows = []) ∧
    (∀ e, (w.commit ts).2 = .error e →
      (w.commit ts).1.service.rows = w.service.rows) := by
  simpa [BulkWorker.commit] using retryDo_rows ts w.service h

theorem C1_witness :
    sampleWorkerOnePending.service.rows ≠ [] ∧
    (sampleWorkerOnePending.commit [okTransport]).1.service.rows = [] := by
  have h := C1_amended_cleared_iff_success sampleWorkerOnePending [okTransport]
    (by decide)
  exact ⟨by decide, h.1 okResponse rfl⟩

/-- C2: the code at the claim's failing input.  Flushing a processor whose
single worker holds one record, against a transport that always fails,
issues the commit attempt, the attempt fails — and `Flush` still returns
`nil` (and does so for every pool and environment): the per-worker error is
dropped at the worker loop's empty `TODO` branch and `Flush`'s only
`return` is `nil`. -/
theorem C2_flush_swallows_commit_failure :
    (∀ (p : BulkProcessor) (env : Nat → List Transport),
      (p.Flush env).2.2 = none) ∧
    (sampleProcessorPending.Flush fun _ => [failTransport]).2.1
      = [FlushEvent.signal 0,
         FlushEvent.commitAttempt 0 [[65]] (Except.error "connection refused"),
         FlushEvent.ack 0] ∧
    (sampleProcessorPending.Flush fun _ => [failTransport]).2.2 = none :=
  ⟨fun _p _env => rfl, rfl, rfl⟩

theorem flushLoop_trace (env : Nat → List Transport) (ws : List BulkWorker) :
    ∀ i, (flushLoop env i ws).2
      = ((ws.enumFrom i).map (flushBlockSpec env)).flatten := by
  induction ws with
  | nil => intro i; rfl
  | cons w ws ih =>
    intro i
    rw [flushLoop]
    by_cases hn : w.service.NumberOfRows > 0
    · simp [BulkWorker.handleFlush, hn, flushBlockSpec, ih, List.enumFrom]
    · simp [BulkWorker.handleFlush, hn, flushBlockSpec, ih, List.enumFrom]

theorem flushLoop_ack (env : Nat → List Transport) (ws : List BulkWorker) :
    ∀ i j, j < ws.length → FlushEvent.ack (i + j) ∈ (flushLoop env i ws).2 := by
  induction ws with
  | nil =>
    intro i j hj
    simp at hj
  | cons w ws ih =>
    intro i j hj
    rw [flushLoop]
    rcases j with _ | j
    · apply List.mem_append_left
      simp
    · apply List.mem_append_right
      have h := ih (i + 1) j (by simpa using hj)
      have heq : i + 1 + j = i + (j + 1) := by omega
      rw [heq] at h
      exact h

/-- C5: `Flush` signals the workers one at a time in pool order, each
worker's whole handling finishing (and its acknowledgment being received)
before the next worker is signaled: the observable trace is exactly the
in-order concatenation of per-worker blocks, each block being the signal,
then a commit attempt exactly when that worker's batch is non-empty, then
the unconditional acknowledgment — which is therefore present for every
worker even when its batch was empty or its commit failed. -/
theorem C5_flush_sequential_handshake (p : BulkProcessor)
    (env : Nat → List Transport) :
    (p.Flush env).2.1 = ((p.workers.enum).map (flushBlockSpec env)).flatten ∧
    ∀ i, i < p.workers.length → FlushEvent.ack i ∈ (p.Flush env).2.1 := by
  constructor
  · simpa [BulkProcessor.Flush, List.enum] using flushLoop_trace env p.workers 0
  · intro i hi
    have h := flushLoop_ack env p.workers 0 i hi
    simpa [BulkProcessor.Flush] using h

theorem C5_witness :
    (sampleProcessorPending.Flush envAllOk).2.1
      = ((sampleProcessorPending.workers.enum).map (flushBlockSpec envAllOk)).flatten ∧
    FlushEvent.ack 0 ∈ (sampleProcessorPending.Flush envAllOk).2.1 := by
  have h := C5_flush_sequential_handshake sampleProcessorPending envAllOk
  exact ⟨h.1, h.2 0 (by decide)⟩

theorem step_row_full (env : Nat → List Transport) (w : BulkWorker) (c : Nat)
    (r : Row) (k : Nat) (hka : w.bulkActions = (k : Int))
    (hfull : w.service.rows.length + 1 = k) :
    BulkWorker.step env w c (WorkerInput.row r)
      = (((({ w with service := w.service.Add [r] } : BulkWorker).commit (env c)).1, c + 1),
         [⟨CommitTrigger.threshold, w.service.rows ++ [r],
           (({ w with service := w.service.Add [r] } : BulkWorker).commit (env c)).2⟩],
         false, false) := by
  have hcount : (w.service.Add [r]).NumberOfRows = w.service.rows.length + 1 := by
    simp [BulkService.Add, BulkService.NumberOfRows]
  have hP : ({ w with service := w.service.Add [r] } : BulkWorker).bulkActions ≥ 0 ∧
      ((({ w with service := w.service.Add [r] } : BulkWorker).service.NumberOfRows : Int)
        ≥ ({ w with service := w.service.Add [r] } : BulkWorker).bulkActions) := by
    refine ⟨?_, ?_⟩
    · show w.bulkActions ≥ 0
      rw [hka]
      exact Int.ofNat_nonneg k
    · show ((w.service.Add [r]).NumberOfRows : Int) ≥ w.bulkActions
      rw [hka, hcount]
      omega
  have hcr : ({ w with service := w.service.Add [r] } : BulkWorker).commitRequired
      = (({ w with service := w.service.Add [r] } : BulkWorker), true) := by
    unfold BulkWorker.commitRequired
    rw [if_pos hP]
  simp only [BulkWorker.step, hcr]
  rfl

theorem step_row_notfull (env : Nat → List Transport) (w : BulkWorker) (c : Nat)
    (r : Row) (k : Nat) (hka : w.bulkActions = (k : Int)) (hks : w.bulkSize < 0)
    (hnot : w.service.rows.length + 1 < k) :
    BulkWorker.step env w c (WorkerInput.row r)
      = ((({ w with service := w.service.Add [r] } : BulkWorker), c),
         [], false, false) := by
  have hcount : (w.service.Add [r]).NumberOfRows = w.service.rows.length + 1 := by
    simp [BulkService.Add, BulkService.NumberOfRows]
  have hnP : ¬(({ w with service := w.service.Add [r] } : BulkWorker).bulkActions ≥ 0 ∧
      ((({ w with service := w.service.Add [r] } : BulkWorker).service.NumberOfRows : Int)
        ≥ ({ w with service := w.service.Add [r] } : BulkWorker).bulkActions)) := by
    rintro ⟨-, h2⟩
    have h2' : ((w.service.Add [r]).NumberOfRows : Int) ≥ w.bulkActions := h2
    rw [hka, hcount] at h2'
    omega
  have hns : ¬(({ w with service := w.service.Add [r] } : BulkWorker).bulkSize ≥ 0) := by
    show ¬(w.bulkSize ≥ 0)
    omega
  have hcr : ({ w with service := w.service.Add [r] } : BulkWorker).commitRequired
      = (({ w with service := w.service.Add [r] } : BulkWorker), false) := by
    unfold BulkWorker.commitRequired
    rw [if_neg hnP, if_neg hns]
  simp [BulkWorker.step, hcr]

theorem run_threshold_commits (k : Nat) (hk : 1 ≤ k)
    (env : Nat → List Transport)
    (henv : ∀ n, ∃ t ts, env n = t :: ts ∧ ∀ req, ∃ v, t req = Except.ok v)
    (rows : List Row) :
    ∀ (w : BulkWorker) (c : Nat),
      w.bulkActions = (k : Int) → w.bulkSize < 0 →
      w.service.rows.length < k →
      ((BulkWorker.run env w c (rows.map WorkerInput.row)).2.length
          = (w.service.rows.length + rows.length) / k) ∧
      (∀ e ∈ (BulkWorker.run env w c (rows.map WorkerInput.row)).2,
          e.trigger = CommitTrigger.threshold ∧ e.payload.length = k) ∧
      (((BulkWorker.run env w c (rows.map WorkerInput.row)).2.map
            (fun e => e.payload)).flatten
          ++ (BulkWorker.run env w c (rows.map WorkerInput.row)).1.1.service.rows
        = w.service.rows ++ rows) ∧
      ((BulkWorker.run env w c (rows.map WorkerInput.row)).1.1.service.rows.length
        = (w.service.rows.length + rows.length) % k) := by
  induction rows with
  | nil =>
    intro w c _ _ hlen
    refine ⟨?_, ?_, ?_, ?_⟩
    · simp [BulkWorker.run, Nat.div_eq_of_lt hlen]
    · intro e he
      simp [BulkWorker.run] at he
    · simp [BulkWorker.run]
    · simp [BulkWorker.run, Nat.mod_eq_of_lt hlen]
  | cons r rest ih =>
    intro w c hka hks hlen
    by_cases hfull : w.service.rows.length + 1 = k
    · obtain ⟨t, ts, henvc, hok⟩ := henv c
      have hcommit_rows :
          ((({ w with service := w.service.Add [r] } : BulkWorker).commit (env c)).1).service.rows
            = [] := by
        have hne : (w.service.Add [r]).rows ≠ [] := by
          simp [BulkService.Add]
        show (BulkWorker.retryDo (w.service.Add [r]) (env c)).1.rows = []
        rw [henvc]
        exact retryDo_ok_head (w.service.Add [r]) t ts hok hne
      have ihh := ih (({ w with service := w.service.Add [r] } : BulkWorker).commit (env c)).1
        (c + 1) hka hks (by rw [hcommit_rows]; simpa using hk)
      rw [List.map_cons, BulkWorker.run,
        step_row_full env w c r k hka hfull]
      dsimp only
      simp only [List.length_cons, List.nil_append]
      rw [hcommit_rows] at ihh
      simp only [List.length_nil, Nat.zero_add, List.nil_append] at ihh
      have harith : w.service.rows.length + (rest.length + 1)
          = rest.length + k := by omega
      refine ⟨?_, ?_, ?_, ?_⟩
      · rw [List.length_append, ihh.1, harith,
          Nat.add_div_right _ (show 0 < k by omega)]
        simp [Nat.add_comm]
      · intro e he
        rcases List.mem_append.1 he with h1 | h2
        · have heq := List.mem_singleton.1 h1
          subst heq
          refine ⟨rfl, ?_⟩
          simp only [List.length_append, List.length_singleton]
          omega
        · exact ihh.2.1 e h2
      · rw [List.map_append, List.flatten_append, List.append_assoc, ihh.2.2.1]
        simp
      · rw [ihh.2.2.2, harith, Nat.add_mod_right]
    · have hnot : w.service.rows.length + 1 < k := by omega
      have ihh := ih ({ w with service := w.service.Add [r] } : BulkWorker) c hka hks
        (by simpa [BulkService.Add] using hnot)
      rw [List.map_cons, BulkWorker.run,
        step_row_notfull env w c r k hka hks hnot]
      dsimp only
      simp only [List.length_cons, List.nil_append]
      have hlen1 : ({ w with service := w.service.Add [r] } : BulkWorker).service.rows.length
          = w.service.rows.length + 1 := by
        simp [BulkService.Add]
      refine ⟨?_, ?_, ?_, ?_⟩
      · rw [ihh.1, hlen1]
        congr 1
        omega
      · exact ihh.2.1
      · rw [ihh.2.2.1]
        simp [BulkService.Add, List.append_assoc]
      · rw [ihh.2.2.2, hlen1]
        congr 1
        omega

theorem C7_witness :
    ((NewBulkProcessor "d" "t" 2 100 (-1) 0).Start).2.isSome = false ∧
    ((NewBulkProcessor "d" "t" 2 100 (-1) 0).Start).1.started = true ∧
    ((NewBulkProcessor "d" "t" 2 100 (-1) 0).Start).1.workers.length = 2 := by
  have h := C7_start_validation_and_idempotence (NewBulkProcessor "d" "t" 2 100 (-1) 0)
  have h2 := (h.2 (by decide)).2 rfl
  refine ⟨?_, h2.2.1, ?_⟩
  · cases hs : ((NewBulkProcessor "d" "t" 2 100 (-1) 0).Start).2.isSome
    · rfl
    · exact absurd (h.1.1 hs) (by decide)
  · rw [h2.2.2.1]
    decide

/-- C4 as stated is false: with max-count k = 2 enabled, byte-size disabled,
one record delivered and an always-successful environment, the claim
predicts ⌈1/2⌉ = 1 threshold-triggered commit, but the worker issues none —
the single record merely stays in the batch. -/
theorem C4_counterexample :
    (BulkWorker.run envAllOk sampleWorkerFreshK2 0
        ([[65]].map WorkerInput.row)).2.length = 0 ∧
    (1 + 2 - 1) / 2 = 1 ∧
    (BulkWorker.run envAllOk sampleWorkerFreshK2 0
        ([[65]].map WorkerInput.row)).1.1.service.rows = [[65]] :=
  ⟨rfl, rfl, rfl⟩

/-- C4 (amended): for every sequence of N records delivered to one worker
with max-count k ≥ 1 enabled, max-byte-size disabled, no flush signals and
every commit attempt succeeding, the worker issues exactly ⌊N/k⌋ (not
⌈N/k⌉) threshold-triggered commits, each containing exactly k records, with
the commits' payloads in original submission order; the remaining N mod k
records stay in the batch, committed only by a later flush or the
close-time drain. -/
theorem C4_amended_floor_commits (k : Nat) (hk : 1 ≤ k) (w : BulkWorker)
    (hka : w.bulkActions = (k : Int)) (hks : w.bulkSize < 0)
    (hempty : w.service.rows = []) (env : Nat → List Transport)
    (henv : ∀ n, ∃ t ts, env n = t :: ts ∧ ∀ req, ∃ v, t req = Except.ok v)
    (rows : List Row) :
    ((BulkWorker.run env w 0 (rows.map WorkerInput.row)).2.length
        = rows.length / k) ∧
    (∀ e ∈ (BulkWorker.run env w 0 (rows.map WorkerInput.row)).2,
        e.trigger = CommitTrigger.threshold ∧ e.payload.length = k) ∧
    (((BulkWorker.run env w 0 (rows.map WorkerInput.row)).2.map
          (fun e => e.payload)).flatten
        ++ (BulkWorker.run env w 0 (rows.map WorkerInput.row)).1.1.service.rows
      = rows) ∧
    ((BulkWorker.run env w 0 (rows.map WorkerInput.row)).1.1.service.rows.length
      = rows.length % k) := by
  have h := run_threshold_commits k hk env henv rows w 0 hka hks
    (by rw [hempty]; simpa using hk)
  rw [hempty] at h
  simpa using h

theorem C4_witness :
    (BulkWorker.run envAllOk sampleWorkerFreshK2 0
        ([[1], [2], [3]].map WorkerInput.row)).2.length = 1 ∧
    (BulkWorker.run envAllOk sampleWorkerFreshK2 0
        ([[1], [2], [3]].map WorkerInput.row)).1.1.service.rows.length = 1 := by
  have h := C4_amended_floor_commits 2 (by omega) sampleWorkerFreshK2 (by decide)
    (by decide) rfl envAllOk
    (fun _n => ⟨okTransport, [], rfl, fun _req => ⟨okResponse, rfl⟩⟩)
    [[1], [2], [3]]
  exact ⟨by simpa using h.1, by simpa using h.2.2.2⟩

end Dorisloader
